import Mathlib

/-!
Verification development for `generate_large_csv.py`, a synthetic CSV
generator.  The program is embedded shallowly: Python's random draws are
modelled by an oracle record `Draws` of arbitrary natural numbers, one per
call to the random library inside the loop body; `random.choice`,
`random.randint` and `round(random.uniform _, k)` map the oracle value into
the required range with a modulus, which is surjective onto the range and
makes the embedding cover every behaviour of the program.  Decimal values
rounded to `k` digits are represented by their numerator scaled by `10^k`
(exact, no floating point), and the string Python's `csv` writer emits for
them (`str` of a float: trailing fractional zeros stripped, at least one
fractional digit kept) is modelled by `pyFloat`.
-/

namespace CSV

/-- One row's worth of random draws, in the order the source performs them:
first name, last name, department, salary, age, random_days, performance,
location, email suffix, active, campaign, impressions, revenue, ctr,
conversion_rate. -/
structure Draws where
  dFirst : Nat
  dLast : Nat
  dDept : Nat
  dSalary : Nat
  dAge : Nat
  dDays : Nat
  dPerf : Nat
  dLoc : Nat
  dSuffix : Nat
  dActive : Nat
  dCampaign : Nat
  dImpr : Nat
  dRev : Nat
  dCtr : Nat
  dConv : Nat
deriving Repr

/-- The `departments` list from the source. -/
def departments : List String :=
  ["Engineering", "Marketing", "Sales", "HR", "Finance", "IT", "Operations",
   "Legal", "R&D", "Customer Service"]

/-- The `locations` list from the source. -/
def locations : List String :=
  ["New York", "San Francisco", "Chicago", "Los Angeles", "Boston", "Seattle",
   "Austin", "Miami", "Denver", "Portland"]

/-- The `first_names` list from the source. -/
def first_names : List String :=
  ["John", "Sarah", "Michael", "Emily", "Robert", "Lisa", "David", "Jennifer",
   "William", "Amanda", "Christopher", "Michelle", "Daniel", "Patricia",
   "James", "Linda", "Mark", "Barbara", "Steven", "Susan", "Kevin", "Jessica",
   "Brian", "Ashley", "Jason", "Stephanie", "Ryan", "Nicole", "Andrew",
   "Rachel"]

/-- The `last_names` list from the source. -/
def last_names : List String :=
  ["Smith", "Johnson", "Chen", "Davis", "Wilson", "Anderson", "Martinez",
   "Taylor", "Brown", "Jones", "Lee", "Garcia", "Rodriguez", "Miller",
   "Hernandez", "Lopez", "Gonzalez", "Thomas", "Jackson", "White", "Harris",
   "Martin", "Thompson", "Moore", "Young", "Allen", "King", "Wright", "Scott",
   "Green"]

/-- The `campaigns` list from the source. -/
def campaigns : List String :=
  ["Google Ads", "Facebook Ads", "Instagram Ads", "LinkedIn Ads",
   "Twitter Ads", "TikTok Ads", "Email Campaign", "Display Ads",
   "YouTube Ads", "Pinterest Ads"]

/-- Model of `random.choice xs` with oracle value `n`: an arbitrary element of `xs`
(the modulus makes every index reachable). -/
def choose (xs : List String) (n : Nat) : String :=
  xs.getD (n % xs.length) ""

/-- Model of `random.randint lo hi` with oracle value `n`: an arbitrary integer in
`[lo, hi]`. -/
def randint (lo hi n : Nat) : Nat :=
  lo + n % (hi - lo + 1)

/-- Decimal digit character for `n < 10` (models positional base-10
printing of nonnegative integers, as `str(int)` does in Python). -/
def digitChar (n : Nat) : Char :=
  Char.ofNat (48 + n)

/-- Accumulator loop producing the decimal digits of `n` most significant
first; `fuel ≥ 1` suffices whenever `n < 10 ^ fuel`. -/
def natStrAux : Nat → Nat → List Char → List Char
  | 0, _, acc => acc
  | fuel + 1, n, acc =>
    if n < 10 then digitChar n :: acc
    else natStrAux fuel (n / 10) (digitChar (n % 10) :: acc)

/-- Decimal rendering of a natural number, modelling Python's `str(int)`
for nonnegative values. -/
def natStr (n : Nat) : String :=
  ⟨natStrAux (n + 1) n []⟩

/-- Leap-year test (Gregorian), as Python's `datetime` uses. -/
def isLeap (y : Nat) : Bool :=
  y % 4 == 0 && (y % 100 != 0 || y % 400 == 0)

/-- Number of days in year `y`. -/
def daysInYear (y : Nat) : Nat :=
  if isLeap y then 366 else 365

/-- Month lengths, January first. -/
def monthLengths (leap : Bool) : List Nat :=
  [31, if leap then 29 else 28, 31, 30, 31, 30, 31, 31, 30, 31, 30, 31]

/-- Walk forward from year `y` consuming whole years out of the day
offset `d`; returns the year and the 0-based day of that year. -/
def findYear : Nat → Nat → Nat → Nat × Nat
  | 0, y, d => (y, d)
  | fuel + 1, y, d =>
    if d < daysInYear y then (y, d) else findYear fuel (y + 1) (d - daysInYear y)

/-- Walk the month-length table consuming whole months out of the 0-based
day of year `d`; returns the 1-based month and the 0-based day of month. -/
def findMonth : List Nat → Nat → Nat → Nat × Nat
  | [], m, d => (m, d)
  | len :: rest, m, d =>
    if d < len then (m, d) else findMonth rest (m + 1) (d - len)

/-- Value of `datetime(2015, 1, 1)` advanced by `offset` days, as a
(year, month, day) triple, months and days 1-based.  Fuel 20 covers every
offset the generator can produce (at most 2920 days, under 9 years). -/
def civilFromOffset (offset : Nat) : Nat × Nat × Nat :=
  let yd := findYear 20 2015 offset
  let md := findMonth (monthLengths (isLeap yd.1)) 1 yd.2
  (yd.1, md.1, md.2 + 1)

/-- Zero-pad to two digits, as `strftime` does for `%m` and `%d`. -/
def pad2 (n : Nat) : String :=
  if n < 10 then ("0" ++ natStr n) else natStr n

/-- Model of `hire_date.strftime("%Y-%m-%d")`. -/
def formatDate : Nat × Nat × Nat → String
  | (y, m, d) => natStr y ++ "-" ++ pad2 m ++ "-" ++ pad2 d

/-- Left-pad a digit string with zeros to length `k` (the fractional part
of a decimal scaled by `10^k`). -/
def padLeft (k : Nat) (s : List Char) : List Char :=
  List.replicate (k - s.length) '0' ++ s

/-- Strip trailing `'0'` characters from a fractional digit string but keep
at least one digit, as Python's `str(float)` shortest representation does
for the decimal values the generator rounds. -/
def stripZeros (digits : List Char) : List Char :=
  let s := digits.reverse.dropWhile (fun c => c == '0')
  if s.isEmpty then ['0'] else s.reverse

/-- The string Python's `csv` writer emits for the float `num / 10^k`
(`num` is the scaled numerator): integer part, a dot, and the fractional
digits with trailing zeros stripped (at least one kept). -/
def pyFloat (num k : Nat) : String :=
  natStr (num / 10 ^ k) ++ "." ++ ⟨stripZeros (padLeft k (natStrAux (num % 10 ^ k + 1) (num % 10 ^ k) []))⟩

/-- One synthesized record, fields in the order the loop body computes
them.  Decimal fields are stored as numerators scaled by `10` (performance)
or `100` (revenue, ctr, conversion_rate). -/
structure Record where
  i : Nat
  first : String
  last : String
  department : String
  salary : Nat
  age : Nat
  randomDays : Nat
  performance : Nat
  location : String
  suffix : Nat
  active : String
  campaign : String
  impressions : Nat
  revenue : Nat
  ctr : Nat
  conversionRate : Nat
deriving Repr

/-- The loop body of `generate_large_csv` for sequence number `i` with
random draws `d`: every sampled value, before serialization. -/
def genRecord (i : Nat) (d : Draws) : Record where
  i := i
  first := choose first_names d.dFirst
  last := choose last_names d.dLast
  department := choose departments d.dDept
  salary := randint 45000 150000 d.dSalary
  age := randint 22 65 d.dAge
  randomDays := randint 0 (365 * 8) d.dDays
  performance := randint 30 50 d.dPerf
  location := choose locations d.dLoc
  suffix := randint 1 999 d.dSuffix
  active := choose ["true", "false"] d.dActive
  campaign := choose campaigns d.dCampaign
  impressions := randint 1000 1000000 d.dImpr
  revenue := randint 1050 2500075 d.dRev
  ctr := randint 10 850 d.dCtr
  conversionRate := randint 50 1500 d.dConv

/-- Python's `str.lower()` (character-wise lowercasing; the name lists are
ASCII, where `Char.toLower` agrees with Python). -/
def lowerStr (s : String) : String :=
  ⟨s.data.map Char.toLower⟩

/-- The email f-string:
`f"{first.lower()}.{last.lower()}{random.randint(1,999)}@company.com"`. -/
def emailOf (first last : String) (suffix : Nat) : String :=
  lowerStr first ++ "." ++ lowerStr last ++ natStr suffix ++ "@company.com"

/-- The `writer.writerow` argument for one record: the 15 cell strings, in the
source's order, each rendered as Python's `str` of the value. -/
def renderRecord (r : Record) : List String :=
  [natStr r.i,
   r.first ++ " " ++ r.last,
   r.department,
   natStr r.salary,
   natStr r.age,
   formatDate (civilFromOffset r.randomDays),
   pyFloat r.performance 1,
   r.location,
   emailOf r.first r.last r.suffix,
   r.active,
   r.campaign,
   natStr r.impressions,
   pyFloat r.revenue 2,
   pyFloat r.ctr 2,
   pyFloat r.conversionRate 2]

/-- The header row written first. -/
def headerRow : List String :=
  ["ID", "Name", "Department", "Salary", "Age", "Start Date",
   "Performance Score", "Location", "Email", "Active",
   "Campaign", "Impressions", "Revenue", "CTR", "Conversion Rate"]

/-- Result of `generate_large_csv filename num_rows`: the rows of the produced file,
header first, with the `j`-th loop iteration (0-based) drawing its random
values from `tape j`.  Each element of the result is one line of the file
as the list of its comma-separated cells. -/
def generate_large_csv (num_rows : Nat) (tape : Nat → Draws) : List (List String) :=
  headerRow :: (List.range num_rows).map (fun j => renderRecord (genRecord (j + 1) (tape j)))

/-! ### Shared helper facts -/

/-- A fixed all-zero draw record, used to instantiate universally
quantified statements at a concrete input. -/
def d0 : Draws :=
  ⟨0, 0, 0, 0, 0, 0, 0, 0, 0, 0, 0, 0, 0, 0, 0⟩

/-- A fixed tape handing every iteration the all-zero draws. -/
def t0 : Nat → Draws :=
  fun _ => d0

/-! ### C1: line count -/

/-- C1: for every positive `N` and every behaviour of the random source,
`generate_large_csv` produces exactly `N + 1` lines: the header first,
then exactly `N` data lines. -/
theorem claim1_line_count (N : Nat) (tape : Nat → Draws) (_h : 1 ≤ N) :
    (generate_large_csv N tape).length = N + 1 ∧
    (generate_large_csv N tape).head? = some headerRow ∧
    (generate_large_csv N tape).tail.length = N := by
  refine ⟨?_, rfl, ?_⟩ <;> simp [generate_large_csv]

/-- Witness for C1 at `N = 2`. -/
theorem claim1_line_count_witness :
    (generate_large_csv 2 t0).length = 2 + 1 ∧
    (generate_large_csv 2 t0).head? = some headerRow ∧
    (generate_large_csv 2 t0).tail.length = 2 :=
  claim1_line_count 2 t0 (by decide)

/-! ### C3: sequence numbers -/

/-- C3: for every `k` from 1 to `N`, the first cell of the `k`-th data line
(line index `k`, after the header at index 0) is the decimal rendering of
`k`: sequence numbers are 1-based, contiguous and follow writing order. -/
theorem claim3_sequence_numbers (N : Nat) (tape : Nat → Draws) (k : Nat)
    (h1 : 1 ≤ k) (h2 : k ≤ N) :
    ((generate_large_csv N tape).getD k []).headD ("") = natStr k := by
  obtain ⟨j, rfl⟩ : ∃ j, k = j + 1 := ⟨k - 1, by omega⟩
  have hj : j < N := by omega
  simp [generate_large_csv, List.getD_eq_getElem?_getD, List.getElem?_map,
    List.getElem?_range hj, renderRecord, genRecord]

/-- Witness for C3 at `N = 5`, `k = 4`. -/
theorem claim3_sequence_numbers_witness :
    ((generate_large_csv 5 t0).getD 4 []).headD ("") = natStr 4 :=
  claim3_sequence_numbers 5 t0 4 (by decide) (by decide)

/-! ### Character-level helper lemmas -/

theorem digitChar_isDigit : ∀ n < 10, (digitChar n).isDigit = true := by decide

theorem mem_natStrAux {c : Char} :
    ∀ (fuel n : Nat) (acc : List Char),
      c ∈ natStrAux fuel n acc → c.isDigit = true ∨ c ∈ acc := by
  intro fuel
  induction fuel with
  | zero => intro n acc h; exact Or.inr h
  | succ fuel ih =>
    intro n acc h
    rw [natStrAux] at h
    by_cases hn : n < 10
    · rw [if_pos hn] at h
      rcases List.mem_cons.mp h with h | h
      · exact Or.inl (h ▸ digitChar_isDigit n hn)
      · exact Or.inr h
    · rw [if_neg hn] at h
      rcases ih _ _ h with h | h
      · exact Or.inl h
      · rcases List.mem_cons.mp h with h | h
        · exact Or.inl (h ▸ digitChar_isDigit _ (Nat.mod_lt _ (by omega)))
        · exact Or.inr h

theorem natStr_digits {n : Nat} {c : Char} (h : c ∈ (natStr n).data) :
    c.isDigit = true := by
  rcases mem_natStrAux (n + 1) n [] h with h | h
  · exact h
  · cases h

theorem natStr_no_comma (n : Nat) : ',' ∉ (natStr n).data := by
  intro h
  have := natStr_digits h
  simp at this

theorem choose_mem {xs : List String} (n : Nat) (h : 0 < xs.length) :
    choose xs n ∈ xs := by
  have hlt : n % xs.length < xs.length := Nat.mod_lt _ h
  rw [choose, List.getD_eq_getElem?_getD, List.getElem?_eq_getElem hlt]
  exact List.getElem_mem hlt

theorem mem_append_str {c : Char} {a b : String} :
    c ∈ (a ++ b).data ↔ c ∈ a.data ∨ c ∈ b.data := by
  rw [String.data_append]; exact List.mem_append

theorem pad2_no_comma (n : Nat) : ',' ∉ (pad2 n).data := by
  rw [pad2]
  split
  · intro h
    rcases mem_append_str.mp h with h | h
    · simp at h
    · exact natStr_no_comma n h
  · exact natStr_no_comma n

theorem formatDate_no_comma (t : Nat × Nat × Nat) :
    ',' ∉ (formatDate t).data := by
  obtain ⟨y, m, d⟩ := t
  intro h
  rw [formatDate] at h
  rcases mem_append_str.mp h with h | h
  · rcases mem_append_str.mp h with h | h
    · rcases mem_append_str.mp h with h | h
      · rcases mem_append_str.mp h with h | h
        · exact natStr_no_comma y h
        · simp at h
      · exact pad2_no_comma m h
    · simp at h
  · exact pad2_no_comma d h

theorem mem_stripZeros {c : Char} {l : List Char} (h : c ∈ stripZeros l) :
    c ∈ l ∨ c = '0' := by
  rw [stripZeros] at h
  split at h
  · right; simpa using h
  · left
    rw [List.mem_reverse] at h
    have hsub : List.Sublist (List.dropWhile (fun c => c == '0') l.reverse) l.reverse :=
      List.dropWhile_sublist _
    exact List.mem_reverse.mp (hsub.mem h)

theorem mem_padLeft {c : Char} {k : Nat} {s : List Char} (h : c ∈ padLeft k s) :
    c = '0' ∨ c ∈ s := by
  rw [padLeft] at h
  rcases List.mem_append.mp h with h | h
  · exact Or.inl (List.eq_of_mem_replicate h)
  · exact Or.inr h

theorem frac_digits {num k : Nat} {c : Char}
    (h : c ∈ stripZeros (padLeft k (natStrAux (num % 10 ^ k + 1) (num % 10 ^ k) []))) :
    c.isDigit = true := by
  rcases mem_stripZeros h with h | h
  · rcases mem_padLeft h with h | h
    · subst h; decide
    · rcases mem_natStrAux _ _ _ h with h | h
      · exact h
      · cases h
  · subst h; decide

theorem pyFloat_chars {num k : Nat} {c : Char} (h : c ∈ (pyFloat num k).data) :
    c.isDigit = true ∨ c = '.' := by
  rw [pyFloat] at h
  rcases mem_append_str.mp h with h | h
  · rcases mem_append_str.mp h with h | h
    · exact Or.inl (natStr_digits h)
    · right; simpa using h
  · exact Or.inl (frac_digits h)

theorem pyFloat_no_comma (num k : Nat) : ',' ∉ (pyFloat num k).data := by
  intro h
  rcases pyFloat_chars h with h | h <;> simp at h

theorem name_lists_no_comma :
    (∀ s ∈ departments, ',' ∉ s.data) ∧ (∀ s ∈ locations, ',' ∉ s.data) ∧
    (∀ s ∈ campaigns, ',' ∉ s.data) ∧
    (∀ s ∈ first_names, ',' ∉ s.data ∧ ',' ∉ (lowerStr s).data) ∧
    (∀ s ∈ last_names, ',' ∉ s.data ∧ ',' ∉ (lowerStr s).data) := by decide

theorem email_no_comma {f l : String} (hf : ',' ∉ (lowerStr f).data)
    (hl : ',' ∉ (lowerStr l).data) (k : Nat) : ',' ∉ (emailOf f l k).data := by
  intro h
  rw [emailOf] at h
  rcases mem_append_str.mp h with h | h
  · rcases mem_append_str.mp h with h | h
    · rcases mem_append_str.mp h with h | h
      · rcases mem_append_str.mp h with h | h
        · exact hf h
        · simp at h
      · exact hl h
    · exact natStr_no_comma k h
  · simp at h

/-- Each cell of a rendered data row is comma-free. -/
theorem renderRecord_no_comma (i : Nat) (d : Draws) :
    ∀ f ∈ renderRecord (genRecord i d), ',' ∉ f.data := by
  obtain ⟨hdep, hloc, hcam, hfst, hlst⟩ := name_lists_no_comma
  have hf : choose first_names d.dFirst ∈ first_names := choose_mem _ (by decide)
  have hl : choose last_names d.dLast ∈ last_names := choose_mem _ (by decide)
  have hd : choose departments d.dDept ∈ departments := choose_mem _ (by decide)
  have hlo : choose locations d.dLoc ∈ locations := choose_mem _ (by decide)
  have hc : choose campaigns d.dCampaign ∈ campaigns := choose_mem _ (by decide)
  have ha : choose ["true", "false"] d.dActive ∈ ["true", "false"] :=
    choose_mem _ (by decide)
  intro f hf15
  simp only [renderRecord, genRecord, List.mem_cons, List.not_mem_nil, or_false] at hf15
  rcases hf15 with rfl | rfl | rfl | rfl | rfl | rfl | rfl | rfl | rfl | rfl | rfl | rfl | rfl | rfl | rfl
  · exact natStr_no_comma _
  · intro h
    rcases mem_append_str.mp h with h | h
    · rcases mem_append_str.mp h with h | h
      · exact (hfst _ hf).1 h
      · simp at h
    · exact (hlst _ hl).1 h
  · exact hdep _ hd
  · exact natStr_no_comma _
  · exact natStr_no_comma _
  · exact formatDate_no_comma _
  · exact pyFloat_no_comma _ _
  · exact hloc _ hlo
  · exact email_no_comma ((hfst _ hf).2) ((hlst _ hl).2) _
  · have ha' : choose ["true", "false"] d.dActive = "true" ∨
        choose ["true", "false"] d.dActive = "false" := by simpa using ha
    rcases ha' with h | h <;> rw [h] <;> decide
  · exact hcam _ hc
  · exact natStr_no_comma _
  · exact pyFloat_no_comma _ _
  · exact pyFloat_no_comma _ _
  · exact pyFloat_no_comma _ _

/-! ### C2: field count and comma-freeness -/

/-- C2: every data line written by the generator has exactly 15
comma-separated cells, in the fixed order of `renderRecord`, and no cell
contains a comma, so no cell requires CSV quoting. -/
theorem claim2_field_shape (N : Nat) (tape : Nat → Draws) (line : List String)
    (h : line ∈ (generate_large_csv N tape).tail) :
    line.length = 15 ∧ ∀ f ∈ line, ',' ∉ f.data := by
  obtain ⟨j, _, rfl⟩ : ∃ j, j < N ∧ renderRecord (genRecord (j + 1) (tape j)) = line := by
    simpa [generate_large_csv] using h
  exact ⟨rfl, renderRecord_no_comma _ _⟩

/-- Witness for C2: the single data line of a one-row file. -/
theorem claim2_field_shape_witness :
    (renderRecord (genRecord 1 d0)).length = 15 ∧
    ∀ f ∈ renderRecord (genRecord 1 d0), ',' ∉ f.data :=
  claim2_field_shape 1 t0 _ (by simp [generate_large_csv, t0])

/-! ### C4: categorical sets and numeric bounds -/

theorem randint_bounds (lo hi n : Nat) (h : lo ≤ hi) :
    lo ≤ randint lo hi n ∧ randint lo hi n ≤ hi := by
  rw [randint]
  have := Nat.mod_lt n (y := hi - lo + 1) (by omega)
  omega

/-- C4: in every generated record, each categorical field lies in its fixed
closed set and each numeric field lies within its inclusive bounds
(decimal fields are stored scaled, so e.g. revenue is `revenue / 100`). -/
theorem claim4_field_domains (i : Nat) (d : Draws) :
    (genRecord i d).department ∈ departments ∧
    (genRecord i d).location ∈ locations ∧
    (genRecord i d).campaign ∈ campaigns ∧
    ((genRecord i d).active = "true" ∨ (genRecord i d).active = "false") ∧
    45000 ≤ (genRecord i d).salary ∧ (genRecord i d).salary ≤ 150000 ∧
    22 ≤ (genRecord i d).age ∧ (genRecord i d).age ≤ 65 ∧
    (3.0 : ℚ) ≤ ((genRecord i d).performance : ℚ) / 10 ∧
    ((genRecord i d).performance : ℚ) / 10 ≤ (5.0 : ℚ) ∧
    1000 ≤ (genRecord i d).impressions ∧ (genRecord i d).impressions ≤ 1000000 ∧
    (10.50 : ℚ) ≤ ((genRecord i d).revenue : ℚ) / 100 ∧
    ((genRecord i d).revenue : ℚ) / 100 ≤ (25000.75 : ℚ) ∧
    (0.1 : ℚ) ≤ ((genRecord i d).ctr : ℚ) / 100 ∧
    ((genRecord i d).ctr : ℚ) / 100 ≤ (8.5 : ℚ) ∧
    (0.5 : ℚ) ≤ ((genRecord i d).conversionRate : ℚ) / 100 ∧
    ((genRecord i d).conversionRate : ℚ) / 100 ≤ (15.0 : ℚ) := by
  have hsal := randint_bounds 45000 150000 d.dSalary (by omega)
  have hage := randint_bounds 22 65 d.dAge (by omega)
  have hperf := randint_bounds 30 50 d.dPerf (by omega)
  have himp := randint_bounds 1000 1000000 d.dImpr (by omega)
  have hrev := randint_bounds 1050 2500075 d.dRev (by omega)
  have hctr := randint_bounds 10 850 d.dCtr (by omega)
  have hconv := randint_bounds 50 1500 d.dConv (by omega)
  have hperf1 : (30 : ℚ) ≤ ((genRecord i d).performance : ℚ) := by
    exact_mod_cast hperf.1
  have hperf2 : ((genRecord i d).performance : ℚ) ≤ 50 := by
    exact_mod_cast hperf.2
  have hrev1 : (1050 : ℚ) ≤ ((genRecord i d).revenue : ℚ) := by
    exact_mod_cast hrev.1
  have hrev2 : ((genRecord i d).revenue : ℚ) ≤ 2500075 := by
    exact_mod_cast hrev.2
  have hctr1 : (10 : ℚ) ≤ ((genRecord i d).ctr : ℚ) := by
    exact_mod_cast hctr.1
  have hctr2 : ((genRecord i d).ctr : ℚ) ≤ 850 := by
    exact_mod_cast hctr.2
  have hconv1 : (50 : ℚ) ≤ ((genRecord i d).conversionRate : ℚ) := by
    exact_mod_cast hconv.1
  have hconv2 : ((genRecord i d).conversionRate : ℚ) ≤ 1500 := by
    exact_mod_cast hconv.2
  refine ⟨choose_mem _ (by decide), choose_mem _ (by decide),
    choose_mem _ (by decide), ?_, hsal.1, hsal.2, hage.1, hage.2,
    ?_, ?_, himp.1, himp.2, ?_, ?_, ?_, ?_, ?_, ?_⟩
  · have ha : choose ["true", "false"] d.dActive ∈ ["true", "false"] :=
      choose_mem d.dActive (by decide)
    simpa using ha
  all_goals norm_num
  all_goals linarith

/-! ### C6: start date validity -/

/-- Numeric value of a decimal digit character. -/
def digitVal (c : Char) : Nat := c.toNat - 48

/-- Checks that a string has exactly the shape `YYYY-MM-DD` (four digits,
hyphen, two digits, hyphen, two digits) and that the digits denote a valid
Gregorian calendar date on or after 2015-01-01 and before 2023-01-01. -/
def isValidDateString (s : String) : Bool :=
  s.data.length == 10 &&
  (s.data.getD 4 ' ' == '-') && (s.data.getD 7 ' ' == '-') &&
  (s.data.getD 0 ' ').isDigit && (s.data.getD 1 ' ').isDigit &&
  (s.data.getD 2 ' ').isDigit && (s.data.getD 3 ' ').isDigit &&
  (s.data.getD 5 ' ').isDigit && (s.data.getD 6 ' ').isDigit &&
  (s.data.getD 8 ' ').isDigit && (s.data.getD 9 ' ').isDigit &&
  (let y := 1000 * digitVal (s.data.getD 0 ' ') + 100 * digitVal (s.data.getD 1 ' ') +
     10 * digitVal (s.data.getD 2 ' ') + digitVal (s.data.getD 3 ' ')
   let m := 10 * digitVal (s.data.getD 5 ' ') + digitVal (s.data.getD 6 ' ')
   let d := 10 * digitVal (s.data.getD 8 ' ') + digitVal (s.data.getD 9 ' ')
   decide (2015 ≤ y) && decide (y ≤ 2022) && decide (1 ≤ m) && decide (m ≤ 12) &&
   decide (1 ≤ d) && decide (d ≤ (monthLengths (isLeap y)).getD (m - 1) 0))

/-- Total number of days in the `fuel` consecutive years starting at `y`. -/
def yearSpan : Nat → Nat → Nat
  | 0, _ => 0
  | fuel + 1, y => daysInYear y + yearSpan fuel (y + 1)

theorem yearSpan_add (a b y : Nat) :
    yearSpan (a + b) y = yearSpan a y + yearSpan b (y + a) := by
  induction a generalizing y with
  | zero => simp [yearSpan]
  | succ a ih =>
    have h1 : a + 1 + b = (a + b) + 1 := by omega
    rw [h1, yearSpan, yearSpan, ih (y + 1)]
    have h2 : y + 1 + a = y + (a + 1) := by omega
    rw [h2]
    omega

theorem findYear_ok : ∀ (fuel y dd : Nat), dd < yearSpan fuel y →
    y ≤ (findYear fuel y dd).1 ∧
    yearSpan ((findYear fuel y dd).1 - y) y ≤ dd ∧
    (findYear fuel y dd).2 < daysInYear (findYear fuel y dd).1 := by
  intro fuel
  induction fuel with
  | zero => intro y dd h; rw [yearSpan] at h; omega
  | succ fuel ih =>
    intro y dd h
    rw [findYear]
    by_cases hd : dd < daysInYear y
    · rw [if_pos hd]
      refine ⟨Nat.le_refl y, ?_, hd⟩
      simp [yearSpan]
    · rw [if_neg hd]
      rw [yearSpan] at h
      have h2 := ih (y + 1) (dd - daysInYear y) (by omega)
      have hy1 : y + 1 ≤ (findYear fuel (y + 1) (dd - daysInYear y)).1 := h2.1
      refine ⟨by omega, ?_, h2.2.2⟩
      have hsplit : (findYear fuel (y + 1) (dd - daysInYear y)).1 - y =
          1 + ((findYear fuel (y + 1) (dd - daysInYear y)).1 - (y + 1)) := by omega
      rw [hsplit, yearSpan_add]
      have h3 := h2.2.1
      have h4 : yearSpan 1 y = daysInYear y := by simp [yearSpan]
      omega

theorem findMonth_ok : ∀ (lens : List Nat) (m doy : Nat), doy < lens.sum →
    m ≤ (findMonth lens m doy).1 ∧
    (findMonth lens m doy).1 < m + lens.length ∧
    (findMonth lens m doy).2 < lens.getD ((findMonth lens m doy).1 - m) 0 := by
  intro lens
  induction lens with
  | nil => intro m doy h; simp at h
  | cons len rest ih =>
    intro m doy h
    rw [findMonth]
    by_cases hd : doy < len
    · rw [if_pos hd]
      refine ⟨Nat.le_refl m, by simp, ?_⟩
      simpa using hd
    · rw [if_neg hd]
      rw [List.sum_cons] at h
      have h2 := ih (m + 1) (doy - len) (by omega)
      have hm1 : m + 1 ≤ (findMonth rest (m + 1) (doy - len)).1 := h2.1
      refine ⟨by omega, by simp; omega, ?_⟩
      have hsplit : (findMonth rest (m + 1) (doy - len)).1 - m =
          ((findMonth rest (m + 1) (doy - len)).1 - (m + 1)) + 1 := by omega
      rw [hsplit]
      simpa using h2.2.2

theorem pad2_struct : ∀ n < 100, (pad2 n).data.length = 2 ∧
    ((pad2 n).data.getD 0 ' ').isDigit = true ∧
    ((pad2 n).data.getD 1 ' ').isDigit = true ∧
    10 * digitVal ((pad2 n).data.getD 0 ' ') + digitVal ((pad2 n).data.getD 1 ' ') = n := by
  decide

theorem natStr4_struct : ∀ t < 8, (natStr (2015 + t)).data.length = 4 ∧
    ((natStr (2015 + t)).data.getD 0 ' ').isDigit = true ∧
    ((natStr (2015 + t)).data.getD 1 ' ').isDigit = true ∧
    ((natStr (2015 + t)).data.getD 2 ' ').isDigit = true ∧
    ((natStr (2015 + t)).data.getD 3 ' ').isDigit = true ∧
    1000 * digitVal ((natStr (2015 + t)).data.getD 0 ' ') +
      100 * digitVal ((natStr (2015 + t)).data.getD 1 ' ') +
      10 * digitVal ((natStr (2015 + t)).data.getD 2 ' ') +
      digitVal ((natStr (2015 + t)).data.getD 3 ' ') = 2015 + t := by
  decide

theorem list_two {l : List Char} (h : l.length = 2) :
    l = [l.getD 0 ' ', l.getD 1 ' '] := by
  match l with
  | [a, b] => rfl
  | [] => simp at h
  | [a] => simp at h
  | a :: b :: c :: rest => simp at h

theorem list_four {l : List Char} (h : l.length = 4) :
    l = [l.getD 0 ' ', l.getD 1 ' ', l.getD 2 ' ', l.getD 3 ' '] := by
  match l with
  | [a, b, c, d] => rfl
  | [] => simp at h
  | [a] => simp at h
  | [a, b] => simp at h
  | [a, b, c] => simp at h
  | a :: b :: c :: d :: e :: rest => simp at h

theorem formatDate_data {y m d : Nat} {a1 a2 a3 a4 b1 b2 c1 c2 : Char}
    (hy : (natStr y).data = [a1, a2, a3, a4])
    (hm : (pad2 m).data = [b1, b2])
    (hd : (pad2 d).data = [c1, c2]) :
    (formatDate (y, m, d)).data = [a1, a2, a3, a4, '-', b1, b2, '-', c1, c2] := by
  show (natStr y ++ "-" ++ pad2 m ++ "-" ++ pad2 d).data = _
  rw [String.data_append, String.data_append, String.data_append, String.data_append,
    hy, hm, hd]
  rfl

/-- Every reachable day offset (0 to 2920) formats to a valid in-window
date string. -/
theorem formatDate_valid (off : Nat) (h : off ≤ 2920) :
    isValidDateString (formatDate (civilFromOffset off)) = true := by
  have hspan20 : yearSpan 20 2015 = 7305 := by decide
  have hfy := findYear_ok 20 2015 off (by omega)
  rcases hp : findYear 20 2015 off with ⟨y, doy⟩
  rw [hp] at hfy
  simp only at hfy
  have hy1 : 2015 ≤ y := hfy.1
  have hy2 : y ≤ 2022 := by
    by_contra hcon
    have h8 : 8 ≤ y - 2015 := by omega
    have h1 : yearSpan (8 + (y - 2015 - 8)) 2015 =
        yearSpan 8 2015 + yearSpan (y - 2015 - 8) (2015 + 8) :=
      yearSpan_add 8 (y - 2015 - 8) 2015
    have h2 : 8 + (y - 2015 - 8) = y - 2015 := by omega
    rw [h2] at h1
    have h3 : yearSpan 8 2015 = 2922 := by decide
    have h4 := hfy.2.1
    omega
  have hdoy : doy < daysInYear y := hfy.2.2
  have hsum : (monthLengths (isLeap y)).sum = daysInYear y := by
    rw [daysInYear]
    cases isLeap y <;> decide
  have hfm := findMonth_ok (monthLengths (isLeap y)) 1 doy (by omega)
  rcases hq : findMonth (monthLengths (isLeap y)) 1 doy with ⟨m, dom⟩
  rw [hq] at hfm
  simp only at hfm
  have hm1 : 1 ≤ m := hfm.1
  have hm2 : m ≤ 12 := by
    have hlen : (monthLengths (isLeap y)).length = 12 := by cases isLeap y <;> decide
    have := hfm.2.1
    omega
  have hdom : dom < (monthLengths (isLeap y)).getD (m - 1) 0 := hfm.2.2
  have hd31 : (monthLengths (isLeap y)).getD (m - 1) 0 ≤ 31 := by
    have hb : ∀ b : Bool, ∀ j < 12, (monthLengths b).getD j 0 ≤ 31 := by decide
    exact hb _ _ (by omega)
  have hciv : civilFromOffset off = (y, m, dom + 1) := by
    rw [civilFromOffset, hp]
    simp only
    rw [hq]
  rw [hciv]
  have hy8 := natStr4_struct (y - 2015) (by omega)
  have hyy : 2015 + (y - 2015) = y := by omega
  rw [hyy] at hy8
  have hpm := pad2_struct m (by omega)
  have hpd := pad2_struct (dom + 1) (by omega)
  have hly := list_four hy8.1
  have hlm := list_two hpm.1
  have hld := list_two hpd.1
  have hdata := formatDate_data hly hlm hld
  rw [isValidDateString, hdata]
  simp only [List.getD_cons_zero, List.getD_cons_succ, List.length_cons, List.length_nil]
  simp only [hy8.2.2.2.2.2, hpm.2.2.2, hpd.2.2.2]
  simp only [hy8.2.1, hy8.2.2.1, hy8.2.2.2.1, hy8.2.2.2.2.1,
    hpm.2.1, hpm.2.2.1, hpd.2.1, hpd.2.2.1, Bool.and_eq_true, beq_self_eq_true,
    decide_eq_true_iff, Bool.and_true, Bool.true_and]
  norm_num
  have hdom2 : dom < (monthLengths (isLeap y))[m - 1]?.getD 0 := by
    rw [← List.getD_eq_getElem?_getD]
    exact hdom
  exact ⟨⟨⟨⟨hy1, hy2⟩, hm1⟩, hm2⟩, Nat.succ_le_of_lt hdom2⟩

/-- C6: the Start Date cell (index 5) of every generated row is a valid
`YYYY-MM-DD` calendar date, on or after 2015-01-01 and before 2023-01-01. -/
theorem claim6_start_date (i : Nat) (d : Draws) :
    isValidDateString ((renderRecord (genRecord i d)).getD 5 "") = true := by
  have h : (renderRecord (genRecord i d)).getD 5 "" =
      formatDate (civilFromOffset (randint 0 (365 * 8) d.dDays)) := rfl
  rw [h]
  have hb := randint_bounds 0 (365 * 8) d.dDays (by omega)
  exact formatDate_valid _ (by omega)

/-! ### C5: fractional digit counts -/

/-- Number of characters after the last `'.'` of a string (the written
fractional digits of a decimal cell). -/
def fracCount (s : String) : Nat :=
  (s.data.reverse.takeWhile (fun c => c != '.')).length

theorem digit_ne_dot {c : Char} (h : c.isDigit = true) : (c != '.') = true := by
  rcases eq_or_ne c '.' with rfl | hne
  · exact absurd h (by decide)
  · simpa using hne

theorem takeWhile_append_dot {p : Char → Bool} {xs ys : List Char}
    (hp : ∀ c ∈ xs, p c = true) (hdot : p '.' = false) :
    (xs ++ '.' :: ys).takeWhile p = xs := by
  induction xs with
  | nil => simp [List.takeWhile_cons, hdot]
  | cons a xs ih =>
    rw [List.cons_append, List.takeWhile_cons, hp a (by simp)]
    rw [ih (fun c hc => hp c (by simp [hc]))]
    simp

/-- The written fractional-digit count of `pyFloat` is the length of its
stripped fraction block. -/
theorem fracCount_pyFloat (num k : Nat) :
    fracCount (pyFloat num k) =
      (stripZeros (padLeft k (natStrAux (num % 10 ^ k + 1) (num % 10 ^ k) []))).length := by
  rw [fracCount, pyFloat, String.data_append, String.data_append]
  have hdata : (String.mk (stripZeros (padLeft k
      (natStrAux (num % 10 ^ k + 1) (num % 10 ^ k) [])))).data =
      stripZeros (padLeft k (natStrAux (num % 10 ^ k + 1) (num % 10 ^ k) [])) := rfl
  rw [hdata]
  have hdot : ("." : String).data = ['.'] := rfl
  rw [hdot, List.reverse_append, List.reverse_append]
  simp only [List.reverse_cons, List.reverse_nil, List.nil_append, List.append_assoc,
    List.singleton_append]
  rw [takeWhile_append_dot (fun c hc => ?_) (by decide), List.length_reverse]
  rw [List.mem_reverse] at hc
  exact digit_ne_dot (frac_digits hc)

theorem natStrAux_length : ∀ (fuel n : Nat) (acc : List Char) (k : Nat),
    n < 10 ^ k → 1 ≤ k → (natStrAux fuel n acc).length ≤ k + acc.length := by
  intro fuel
  induction fuel with
  | zero => intro n acc k _ hk; rw [natStrAux]; omega
  | succ fuel ih =>
    intro n acc k hn hk
    rw [natStrAux]
    by_cases h10 : n < 10
    · rw [if_pos h10]; simp; omega
    · rw [if_neg h10]
      have hk2 : 2 ≤ k := by
        by_contra hcon
        have : k = 1 := by omega
        subst this
        simp at hn
        omega
      have hdiv : n / 10 < 10 ^ (k - 1) := by
        apply Nat.div_lt_of_lt_mul
        have : 10 ^ (k - 1) * 10 = 10 ^ k := by
          rw [← pow_succ]
          congr 1
          omega
        omega
      have := ih (n / 10) (digitChar (n % 10) :: acc) (k - 1) hdiv (by omega)
      simp at this
      omega

theorem stripZeros_pos (l : List Char) : 1 ≤ (stripZeros l).length := by
  rw [stripZeros]
  split
  · simp
  · next h =>
    rw [List.length_reverse]
    rcases Nat.eq_zero_or_pos (List.dropWhile (fun c => c == '0') l.reverse).length with h0 | h0
    · rw [List.length_eq_zero] at h0
      rw [h0] at h
      simp at h
    · omega

theorem stripZeros_le {l : List Char} (h : 1 ≤ l.length) :
    (stripZeros l).length ≤ l.length := by
  rw [stripZeros]
  split
  · simpa using h
  · rw [List.length_reverse]
    calc (List.dropWhile (fun c => c == '0') l.reverse).length
        ≤ l.reverse.length := (List.dropWhile_sublist _).length_le
      _ = l.length := List.length_reverse l

theorem padLeft_length {k : Nat} {s : List Char} (h : s.length ≤ k) :
    (padLeft k s).length = k := by
  rw [padLeft]
  simp
  omega

/-- Fraction-block length bounds for `pyFloat` with `k ≥ 1`: at least one
and at most `k` fractional digits are written. -/
theorem fracCount_bounds (num k : Nat) (hk : 1 ≤ k) :
    1 ≤ fracCount (pyFloat num k) ∧ fracCount (pyFloat num k) ≤ k := by
  rw [fracCount_pyFloat]
  have hfp : num % 10 ^ k < 10 ^ k := Nat.mod_lt _ (by positivity)
  have hlen : (natStrAux (num % 10 ^ k + 1) (num % 10 ^ k) []).length ≤ k := by
    have := natStrAux_length (num % 10 ^ k + 1) (num % 10 ^ k) [] k hfp hk
    simpa using this
  have hpad := padLeft_length hlen
  constructor
  · exact stripZeros_pos _
  · have h1 : (stripZeros (padLeft k (natStrAux (num % 10 ^ k + 1) (num % 10 ^ k) []))).length ≤
        (padLeft k (natStrAux (num % 10 ^ k + 1) (num % 10 ^ k) [])).length := by
      apply stripZeros_le
      omega
    omega

/-- C5 as stated is false: with the all-zero draws the revenue value is
exactly 10.50, and Python's `str` writes it as `"10.5"` — one fractional
digit, not the two the claim requires. -/
theorem claim5_counterexample :
    (renderRecord (genRecord 1 d0)).getD 12 "" = "10.5" ∧ fracCount ("10.5") ≠ 2 := by
  constructor
  · rfl
  · decide

/-- C5 (amended): the Performance cell always carries exactly one
fractional digit, and each of the Revenue, CTR and Conversion-Rate cells
carries at least one and at most two fractional digits (Python's float
`str` strips trailing fractional zeros, keeping at least one digit). -/
theorem claim5_fraction_digits (i : Nat) (d : Draws) :
    fracCount ((renderRecord (genRecord i d)).getD 6 "") = 1 ∧
    (1 ≤ fracCount ((renderRecord (genRecord i d)).getD 12 "") ∧
      fracCount ((renderRecord (genRecord i d)).getD 12 "") ≤ 2) ∧
    (1 ≤ fracCount ((renderRecord (genRecord i d)).getD 13 "") ∧
      fracCount ((renderRecord (genRecord i d)).getD 13 "") ≤ 2) ∧
    (1 ≤ fracCount ((renderRecord (genRecord i d)).getD 14 "") ∧
      fracCount ((renderRecord (genRecord i d)).getD 14 "") ≤ 2) := by
  have h6 : (renderRecord (genRecord i d)).getD 6 "" =
      pyFloat (genRecord i d).performance 1 := rfl
  have h12 : (renderRecord (genRecord i d)).getD 12 "" =
      pyFloat (genRecord i d).revenue 2 := rfl
  have h13 : (renderRecord (genRecord i d)).getD 13 "" =
      pyFloat (genRecord i d).ctr 2 := rfl
  have h14 : (renderRecord (genRecord i d)).getD 14 "" =
      pyFloat (genRecord i d).conversionRate 2 := rfl
  rw [h6, h12, h13, h14]
  have hp := fracCount_bounds (genRecord i d).performance 1 (by omega)
  refine ⟨by omega, fracCount_bounds _ 2 (by omega),
    fracCount_bounds _ 2 (by omega), fracCount_bounds _ 2 (by omega)⟩

/-! ### C10: email shape -/

/-- Every email string the generator can ever emit: one choice of first
name, last name and suffix between 1 and 999. -/
def possibleEmails : Finset String :=
  ((Finset.range 30) ×ˢ ((Finset.range 30) ×ˢ (Finset.Icc 1 999))).image
    (fun p => emailOf (first_names.getD p.1 ("")) (last_names.getD p.2.1 ("")) p.2.2)

/-- C10: the Email cell of every generated row is exactly
`first.last{k}@company.com` built from the lowercased first and last name
of that row's Name cell with a suffix `k` between 1 and 999; consequently
every email lies in `possibleEmails`, a set of at most 30 × 30 × 999
values. -/
theorem claim10_email_shape (i : Nat) (d : Draws) :
    (∃ a b k, a < 30 ∧ b < 30 ∧ 1 ≤ k ∧ k ≤ 999 ∧
      (renderRecord (genRecord i d)).getD 8 "" =
        emailOf (first_names.getD a ("")) (last_names.getD b ("")) k ∧
      (renderRecord (genRecord i d)).getD 1 "" =
        first_names.getD a ("") ++ " " ++ last_names.getD b ("") ∧
      emailOf (first_names.getD a ("")) (last_names.getD b ("")) k ∈ possibleEmails) ∧
    possibleEmails.card ≤ 30 * 30 * 999 := by
  have hsuf := randint_bounds 1 999 d.dSuffix (by omega)
  have hmem : emailOf (first_names.getD (d.dFirst % 30) "")
      (last_names.getD (d.dLast % 30) "") (randint 1 999 d.dSuffix) ∈ possibleEmails := by
    rw [possibleEmails]
    apply Finset.mem_image.mpr
    refine ⟨(d.dFirst % 30, (d.dLast % 30, randint 1 999 d.dSuffix)), ?_, rfl⟩
    rw [Finset.mem_product]
    refine ⟨Finset.mem_range.mpr (Nat.mod_lt _ (by omega)), ?_⟩
    rw [Finset.mem_product]
    exact ⟨Finset.mem_range.mpr (Nat.mod_lt _ (by omega)),
      Finset.mem_Icc.mpr ⟨hsuf.1, hsuf.2⟩⟩
  refine ⟨⟨d.dFirst % 30, d.dLast % 30, randint 1 999 d.dSuffix,
    Nat.mod_lt _ (by omega), Nat.mod_lt _ (by omega), hsuf.1, hsuf.2,
    rfl, rfl, hmem⟩, ?_⟩
  calc possibleEmails.card
      ≤ ((Finset.range 30) ×ˢ ((Finset.range 30) ×ˢ (Finset.Icc 1 999))).card :=
        Finset.card_image_le
    _ = 30 * 30 * 999 := by
        rw [Finset.card_product, Finset.card_product, Nat.card_Icc,
          Finset.card_range]

/-! ### The invocation layer `main` -/

/-- Tail of a Python integer literal after its first digit:
digits optionally separated by single underscores. -/
def digitsTail : List Char → Bool
  | [] => true
  | '_' :: c :: rest => c.isDigit && digitsTail rest
  | c :: rest => c.isDigit && digitsTail rest

/-- A nonempty underscore-grouped digit run (Python's `digitpart`). -/
def digitsOk : List Char → Bool
  | [] => false
  | c :: rest => c.isDigit && digitsTail rest

/-- Accumulate the value of a digit run, skipping grouping underscores. -/
def natOfDigits : List Char → Nat → Nat
  | [], acc => acc
  | c :: rest, acc =>
    if c == '_' then natOfDigits rest acc
    else natOfDigits rest (10 * acc + digitVal c)

/-- Python's `int(s)` on command-line text: optional surrounding
whitespace, an optional sign, then an underscore-grouped digit run;
anything else raises `ValueError`, modelled as `none`.  (Non-ASCII digits,
which `int` also accepts, cannot reach `sys.argv` in this program's
documented usage and are not modelled.) -/
def pyInt (s : String) : Option Int :=
  let t := ((s.data.dropWhile Char.isWhitespace).reverse.dropWhile
    Char.isWhitespace).reverse
  match t with
  | '-' :: rest =>
    if digitsOk rest then some (-(natOfDigits rest 0 : Int)) else none
  | '+' :: rest =>
    if digitsOk rest then some ((natOfDigits rest 0 : Int)) else none
  | _ => if digitsOk t then some ((natOfDigits t 0 : Int)) else none

/-- Observable outcome of one invocation: the files the run generates
(name and requested row count, in order) and the validation messages it
prints.  Progress and summary prints carry no claim content and are not
recorded. -/
structure MainResult where
  files : List (String × Nat)
  messages : List String
deriving Repr

/-- The output file name `main` derives from a validated row count:
`f"mega_sample_{n//1000}k.csv"` from one million rows up, else
`f"sample_{n//1000}k.csv"`. -/
def fileNameFor (nn : Nat) : String :=
  if 1000000 ≤ nn then ("mega_sample_" ++ natStr (nn / 1000) ++ "k.csv")
  else ("sample_" ++ natStr (nn / 1000) ++ "k.csv")

/-- The `main()` entry point.  `arg` is `sys.argv[1]` when present.  With
an argument: parse it (`ValueError` → usage message, nothing generated),
reject counts under 1000 with a warning, otherwise generate exactly one
file named by `fileNameFor`.  With no argument: generate the three default
files. -/
def main (arg : Option String) : MainResult :=
  match arg with
  | some s =>
    match pyInt s with
    | some n =>
      if n < 1000 then
        { files := [], messages := ["⚠️  Minimum 1,000 rows recommended"] }
      else
        { files := [(fileNameFor n.toNat, n.toNat)], messages := [] }
    | none =>
      { files := [],
        messages := ["❌ Please provide a valid number of rows",
          "Usage: python3 generate_large_csv.py <number_of_rows>"] }
  | none =>
    { files := [("sample_10k.csv", 10000), ("sample_100k.csv", 100000),
        ("mega_sample_1000k.csv", 1000000)],
      messages := [] }

/-! ### C7: invalid row-count argument -/

/-- C7 as stated is false for the missing-argument half: invoked with no
argument, `main` does not reject; it generates the three default files. -/
theorem claim7_counterexample :
    (main none).files = [("sample_10k.csv", 10000), ("sample_100k.csv", 100000),
      ("mega_sample_1000k.csv", 1000000)] ∧ (main none).files ≠ [] := by
  constructor
  · rfl
  · decide

/-- C7 (amended): when the argument is present but non-numeric, the input
is rejected before any file is opened: an error and a usage message are
printed and no file is produced. -/
theorem claim7_invalid_argument (s : String) (h : pyInt s = none) :
    (main (some s)).files = [] ∧
    (main (some s)).messages = ["❌ Please provide a valid number of rows",
      "Usage: python3 generate_large_csv.py <number_of_rows>"] := by
  simp [main, h]

/-- Witness for C7 at the spec's example argument `"abc"`. -/
theorem claim7_invalid_argument_witness :
    (main (some ("abc"))).files = [] ∧
    (main (some ("abc"))).messages = ["❌ Please provide a valid number of rows",
      "Usage: python3 generate_large_csv.py <number_of_rows>"] :=
  claim7_invalid_argument ("abc") (by decide)

/-! ### C8: row counts below the floor -/

/-- C8: every integer argument below 1000 — zero and negative numbers
included — is rejected with the minimum-rows warning; no file is created
and the generator is never invoked. -/
theorem claim8_below_minimum (s : String) (n : Int) (h : pyInt s = some n)
    (hn : n < 1000) :
    (main (some s)).files = [] ∧
    (main (some s)).messages = ["⚠️  Minimum 1,000 rows recommended"] := by
  simp [main, h, hn]

/-- Witness for C8 at argument `"0"`. -/
theorem claim8_below_minimum_witness :
    (main (some ("0"))).files = [] ∧
    (main (some ("0"))).messages = ["⚠️  Minimum 1,000 rows recommended"] :=
  claim8_below_minimum ("0") 0 (by decide) (by decide)

/-! ### C9: one file, named by convention -/

/-- C9: a valid integer argument of at least 1000 produces exactly one
file, named with the `mega_sample_` convention from one million rows up
and the `sample_` convention below; the two conventions never coincide. -/
theorem claim9_single_file (s : String) (n : Int) (h : pyInt s = some n)
    (hn : 1000 ≤ n) :
    (main (some s)).files = [(fileNameFor n.toNat, n.toNat)] ∧
    (1000000 ≤ n →
      fileNameFor n.toNat = "mega_sample_" ++ natStr (n.toNat / 1000) ++ "k.csv") ∧
    (n < 1000000 →
      fileNameFor n.toNat = "sample_" ++ natStr (n.toNat / 1000) ++ "k.csv") ∧
    "mega_sample_" ++ natStr (n.toNat / 1000) ++ "k.csv" ≠
      "sample_" ++ natStr (n.toNat / 1000) ++ "k.csv" := by
  refine ⟨?_, ?_, ?_, ?_⟩
  · simp only [main, h]
    rw [if_neg (show ¬n < 1000 by omega)]
  · intro h6
    rw [fileNameFor, if_pos (by omega)]
  · intro h6
    rw [fileNameFor, if_neg (by omega)]
  · intro heq
    have hlen := congrArg String.length heq
    rw [String.length_append, String.length_append, String.length_append,
      String.length_append] at hlen
    have h1 : ("mega_sample_" : String).length = 12 := rfl
    have h2 : ("sample_" : String).length = 7 := rfl
    omega

/-- Witness for C9 at the spec's example argument `"1500000"`. -/
theorem claim9_single_file_witness :
    (main (some ("1500000"))).files =
      [(fileNameFor (1500000 : Int).toNat, (1500000 : Int).toNat)] ∧
    (1000000 ≤ (1500000 : Int) →
      fileNameFor (1500000 : Int).toNat =
        "mega_sample_" ++ natStr ((1500000 : Int).toNat / 1000) ++ "k.csv") ∧
    ((1500000 : Int) < 1000000 →
      fileNameFor (1500000 : Int).toNat =
        "sample_" ++ natStr ((1500000 : Int).toNat / 1000) ++ "k.csv") ∧
    "mega_sample_" ++ natStr ((1500000 : Int).toNat / 1000) ++ "k.csv" ≠
      "sample_" ++ natStr ((1500000 : Int).toNat / 1000) ++ "k.csv" :=
  claim9_single_file ("1500000") 1500000 (by decide) (by decide)

end CSV
